import Mathlib

/-
Verification of the Mobile-and-Website-Sales-Analysis ETL pipeline
(scripts/etl.py and scripts/load_db.py), as a shallow embedding.

Conventions of the embedding:
- machine side effects (database execution, file reads) are modelled by
  explicit oracles passed as function arguments;
- Python exceptions are modelled with the Except monad;
- pandas missing values (NaN / NaT / None) are modelled with Option;
- a Python string cell that the code feeds to ast.literal_eval carries its
  parse outcome as data (none when literal_eval would raise), since
  literal_eval is an external library routine.
-/

set_option linter.unusedVariables false

namespace SalesETL

abbrev Err := String

/- ------------------------------------------------------------------
Part 1: scripts/etl.py, handle_error and the stage loop of main.

handle_error(e, context, action) logs and then either re-raises
(action = "raise", the default) or merely warns and returns.
-/

/-- Embedding of handle_error from scripts/etl.py: when action is the
string raise, the exception is re-raised (error result); otherwise the
step is skipped with a warning (ok result). -/
def handle_error (e : Err) (context : String) (action : String) : Except Err Unit :=
  if action = "raise" then Except.error e else Except.ok ()

/-- The seven stage names of the stages list in etl.main, in order. -/
def etl_stages : List String :=
  ["transactions", "transactions_prods", "click_stream", "events_add_to_cart",
   "products", "customers", "sessions"]

/-- Embedding of the stage loop of etl.main.  stageFail gives each stage
body an outcome (none = the body runs without exception, some e = the body
raises e).  Each stage is wrapped in try/except whose handler calls
handle_error with the default action, exactly as in the source, where the
action keyword is not passed at the stage-level call sites.  Returns the
list of stages attempted and the outcome of the loop. -/
def runStages (stageFail : String → Option Err) :
    List String → List String × Except Err Unit
  | [] => ([], Except.ok ())
  | s :: rest =>
    match stageFail s with
    | none =>
      let p := runStages stageFail rest
      (s :: p.1, p.2)
    | some e =>
      match handle_error e ("Processing " ++ s) "raise" with
      | Except.ok _ =>
        let p := runStages stageFail rest
        (s :: p.1, p.2)
      | Except.error e2 => ([s], Except.error e2)

/-- Embedding of etl.main: runs the stage loop over the seven stages inside
an outer try/except whose handler again calls handle_error with the default
action (so an error escaping the loop is re-raised out of main). -/
def etl_main (stageFail : String → Option Err) : List String × Except Err Unit :=
  let p := runStages stageFail etl_stages
  match p.2 with
  | Except.ok _ => (p.1, Except.ok ())
  | Except.error e =>
    match handle_error e "Main ETL process" "raise" with
    | Except.ok _ => (p.1, Except.ok ())
    | Except.error e2 => (p.1, Except.error e2)

/-- Concrete failure oracle: the body of the first stage (transactions)
raises, for example because transactions.csv is missing; every other stage
body would succeed. -/
def firstStageFails : String → Option Err :=
  fun s => if s = "transactions" then some "FileNotFoundError: transactions.csv" else none

/- ------------------------------------------------------------------
Part 2: the derived indicator columns of the transactions stage
(etl.py lines 93-94).  shipment_fee and promo_amount are Numeric(18,2)
columns, modelled as rationals.
-/

/-- Embedding of (transactions_1 shipment_fee == 0).astype(int). -/
def has_free_shipping (shipment_fee : Rat) : Int :=
  if shipment_fee = 0 then 1 else 0

/-- Embedding of (transactions_1 promo_amount > 0).astype(int). -/
def has_promo (promo_amount : Rat) : Int :=
  if 0 < promo_amount then 1 else 0

/- ------------------------------------------------------------------
Part 3: parse_and_explode_products (etl.py lines 119-135).

The product_metadata cell of an order row is a Python value: a string
(whose ast.literal_eval outcome we carry as data, none when literal_eval
would raise), an actual list, or any other value (NaN, a number, ...).
A parsed element is either a dict (whose get calls we model with Option
fields) or any non-dict value.
-/

/-- A parsed list element as seen by the row lambdas: a dict with the
three looked-up keys possibly absent, or any non-dict value (for which
isinstance(x, dict) is false and every field becomes None). -/
inductive PyElem
  | pdict (product_id quantity item_price : Option Int)
  | pnondict
deriving DecidableEq, Repr

/-- The value stored in the products column after safe_parse: a Python
list, or a non-list scalar (a string can literal_eval to any value, and
safe_parse does not check that the parse result is a list). -/
inductive ProdsCell
  | clist (xs : List PyElem)
  | cscalar
deriving DecidableEq, Repr

/-- The raw product_metadata cell.  mstr carries the literal_eval outcome
of the string (none when literal_eval raises, for a malformed encoding). -/
inductive MetaCell
  | mstr (parsed : Option ProdsCell)
  | mlist (xs : List PyElem)
  | mother
deriving DecidableEq, Repr

/-- One order row of the transactions dataframe, restricted to the columns
parse_and_explode_products reads. -/
structure OrderRow where
  booking_id : String
  product_metadata : MetaCell
deriving DecidableEq, Repr

/-- One output row of parse_and_explode_products. -/
structure LineRow where
  booking_id : String
  product_id : Option Int
  quantity : Option Int
  item_price : Option Int
  product_amount : Option Int
deriving DecidableEq, Repr

/-- Embedding of safe_parse: a string is passed to ast.literal_eval (which
may raise, propagating out of the apply call); a list is returned as is;
any other value becomes the empty list.  Note that no branch catches a
literal_eval failure. -/
def safe_parse : MetaCell → Except Err ProdsCell
  | MetaCell.mstr none => Except.error "malformed node or string"
  | MetaCell.mstr (some v) => Except.ok v
  | MetaCell.mlist xs => Except.ok (ProdsCell.clist xs)
  | MetaCell.mother => Except.ok (ProdsCell.clist [])

/-- pandas explode semantics on one products cell: a non-empty list gives
one element per entry, an empty list gives a single NaN cell, and a
non-list scalar is kept as a single cell.  NaN and a kept scalar are both
non-dict values downstream. -/
def explodeCell : ProdsCell → List PyElem
  | ProdsCell.clist [] => [PyElem.pnondict]
  | ProdsCell.clist (x :: xs) => x :: xs
  | ProdsCell.cscalar => [PyElem.pnondict]

/-- The three x.get lookups of the row lambdas: None on a non-dict. -/
def elemFields : PyElem → Option Int × Option Int × Option Int
  | PyElem.pdict p q i => (p, q, i)
  | PyElem.pnondict => (none, none, none)

/-- pandas elementwise product of two nullable columns: NaN when either
operand is missing. -/
def optMul (a b : Option Int) : Option Int :=
  match a, b with
  | some x, some y => some (x * y)
  | _, _ => none

/-- The output rows contributed by one order row once its products cell is
parsed: one row per exploded element, with product_amount = quantity *
item_price computed on the nullable columns. -/
def lineRowsOf (bid : String) (p : ProdsCell) : List LineRow :=
  (explodeCell p).map (fun x =>
    let f := elemFields x
    { booking_id := bid, product_id := f.1, quantity := f.2.1,
      item_price := f.2.2, product_amount := optMul f.2.1 f.2.2 })

/-- Sequential map in the Except monad, modelling pandas Series.apply,
which raises at the first failing row. -/
def mapExcept (f : α → Except Err β) : List α → Except Err (List β)
  | [] => Except.ok []
  | a :: as =>
    match f a with
    | Except.error e => Except.error e
    | Except.ok b =>
      match mapExcept f as with
      | Except.error e => Except.error e
      | Except.ok bs => Except.ok (b :: bs)

/-- Embedding of parse_and_explode_products: apply safe_parse to every
product_metadata cell (any literal_eval failure propagates), then explode
and build the per-line rows. -/
def parse_and_explode_products (df : List OrderRow) : Except Err (List LineRow) :=
  match mapExcept
      (fun r => (safe_parse r.product_metadata).map (fun p => (r.booking_id, p))) df with
  | Except.error e => Except.error e
  | Except.ok parsed => Except.ok (parsed.flatMap (fun bp => lineRowsOf bp.1 bp.2))

/-- The rows a single order row contributes when its cell parses (empty
when safe_parse raises, a case excluded by the hypotheses that use it). -/
def lineRowsOfRow (r : OrderRow) : List LineRow :=
  match safe_parse r.product_metadata with
  | Except.ok p => lineRowsOf r.booking_id p
  | Except.error _ => []

/-- The row count the code actually produces for one order: the length of
the parsed list when it is a non-empty list, and one row otherwise (empty
list, non-list parse result, or non-string non-list cell); zero marks the
raising case. -/
def expectedLineCount (m : MetaCell) : Nat :=
  match safe_parse m with
  | Except.ok (ProdsCell.clist xs) => max xs.length 1
  | Except.ok ProdsCell.cscalar => 1
  | Except.error _ => 0

/-- The three-order scenario of the spec: order A with a two-element list,
order B with a malformed non-list cell, order C with a one-element list. -/
def c2ScenarioDf : List OrderRow :=
  [{ booking_id := "A",
     product_metadata := MetaCell.mstr (some (ProdsCell.clist
       [PyElem.pdict (some 1) (some 2) (some 10),
        PyElem.pdict (some 2) (some 1) (some 5)])) },
   { booking_id := "B", product_metadata := MetaCell.mother },
   { booking_id := "C",
     product_metadata := MetaCell.mlist [PyElem.pdict (some 3) (some 1) (some 7)] }]

/- ------------------------------------------------------------------
Part 4: make_event_table (etl.py lines 166-171).

A clickstream row carries an event_metadata string cell; as in Part 3 the
cell carries its literal_eval outcome as data (none when literal_eval
would raise).  For the ADD_TO_CART subtype the parsed dict holds the
product fields that the flattening joins as new columns.
-/

/-- The flattened metadata dict of one clickstream row. -/
structure MetaDict where
  product_id : Option Int
  quantity : Option Int
  item_price : Option Int
deriving DecidableEq, Repr

/-- One raw clickstream row, restricted to the columns make_event_table
touches.  event_metadata is none when literal_eval would raise on it. -/
structure CSRow where
  event_id : String
  event_time : Int
  session_id : String
  event_name : String
  traffic_source : String
  event_metadata : Option MetaDict
deriving DecidableEq, Repr

/-- One output row of make_event_table: the original columns minus
event_metadata and event_name, joined with the metadata columns. -/
structure EventRow where
  event_id : String
  event_time : Int
  session_id : String
  traffic_source : String
  product_id : Option Int
  quantity : Option Int
  item_price : Option Int
deriving DecidableEq, Repr

/-- The flattening of one filtered row with its parsed metadata dict. -/
def flattenRow (r : CSRow) (m : MetaDict) : EventRow :=
  { event_id := r.event_id, event_time := r.event_time,
    session_id := r.session_id, traffic_source := r.traffic_source,
    product_id := m.product_id, quantity := m.quantity,
    item_price := m.item_price }

/-- literal_eval applied to one filtered event_metadata cell. -/
def parseMetadata (r : CSRow) : Except Err EventRow :=
  match r.event_metadata with
  | none => Except.error "malformed node or string"
  | some m => Except.ok (flattenRow r m)

/-- Embedding of make_event_table: filter the dataframe to the rows whose
event_name equals the requested name, literal_eval every kept metadata
cell (raising on the first failure), and join the parsed fields while
dropping the event_metadata and event_name columns. -/
def make_event_table (df : List CSRow) (event_name : String) : Except Err (List EventRow) :=
  mapExcept parseMetadata (df.filter (fun r => r.event_name == event_name))

/-- A two-row clickstream: one ADD_TO_CART row and one CLICK row. -/
def c5Df : List CSRow :=
  [{ event_id := "e1", event_time := 5, session_id := "s1",
     event_name := "ADD_TO_CART", traffic_source := "web",
     event_metadata := some { product_id := some 1, quantity := some 2,
                              item_price := some 3 } },
   { event_id := "e2", event_time := 6, session_id := "s1",
     event_name := "CLICK", traffic_source := "web", event_metadata := none }]

/-- The single output row make_event_table produces on c5Df. -/
def c5OutRow : EventRow :=
  { event_id := "e1", event_time := 5, session_id := "s1", traffic_source := "web",
    product_id := some 1, quantity := some 2, item_price := some 3 }

/- ------------------------------------------------------------------
Part 5: the per-event-type session aggregation of the sessions stage
(etl.py lines 280-301).

step1 gains, for each event type e, a masked column e_time that holds
event_time on the rows whose event_name is e and NaN elsewhere.  The
groupby over (session_id, traffic_source) then aggregates that column with
count (number of non-null values, always a number, 0 for an all-NaN
group), min and max (both NaT, i.e. null, for an all-NaN group).
-/

/-- One clickstream row as the sessions stage reads it. -/
structure ClickRow where
  event_id : String
  event_time : Int
  session_id : String
  event_name : String
  traffic_source : String
deriving DecidableEq, Repr

/-- The event_types list of the sessions stage. -/
def event_types : List String :=
  ["ADD_PROMO", "ADD_TO_CART", "BOOKING", "CLICK",
   "HOMEPAGE", "ITEM_DETAIL", "PROMO_PAGE", "SCROLL", "SEARCH"]

/-- The masked column cell for event type e on one row:
step1.loc assigns event_time where event_name equals e, NaN elsewhere. -/
def maskedTime (e : String) (r : ClickRow) : Option Int :=
  if r.event_name = e then some r.event_time else none

/-- The rows of one (session_id, traffic_source) group of the groupby. -/
def sessionRows (df : List ClickRow) (sid ts : String) : List ClickRow :=
  df.filter (fun r => r.session_id == sid && r.traffic_source == ts)

/-- The three aggregate cells of one non-terminal event type in one
session row of the output: count, first time, last time.  The count cell
is an Option so that the null-versus-zero question is statable; pandas
count always yields a number, hence the some. -/
structure TypeAgg where
  cnt : Option Nat
  first_time : Option Int
  last_time : Option Int
deriving DecidableEq, Repr

/-- pandas count on a nullable column: the number of non-null values. -/
def aggCount (xs : List (Option Int)) : Option Nat :=
  some (xs.filterMap id).length

/-- pandas min on a nullable column: NaT (none) when no value. -/
def aggMin (xs : List (Option Int)) : Option Int :=
  (xs.filterMap id).min?

/-- pandas max on a nullable column: NaT (none) when no value. -/
def aggMax (xs : List (Option Int)) : Option Int :=
  (xs.filterMap id).max?

/-- The count / first-time / last-time cells the sessions output holds for
a non-terminal event type e in the group of (sid, ts): the aggregation of
the masked column of e over the rows of that group. -/
def typeAgg (df : List ClickRow) (sid ts e : String) : TypeAgg :=
  let m := (sessionRows df sid ts).map (maskedTime e)
  { cnt := aggCount m, first_time := aggMin m, last_time := aggMax m }

/-- A one-row clickstream: session s1 from web with a single CLICK event
and, in particular, zero SEARCH events. -/
def c3Df : List ClickRow :=
  [{ event_id := "e1", event_time := 10, session_id := "s1",
     event_name := "CLICK", traffic_source := "web" }]

/- ------------------------------------------------------------------
Part 6: upload_table (etl.py lines 40-60).

The warehouse is an association list from table names to row lists.  The
drop, the typed create (to_sql with if_exists fail) and the chunked
inserts all run inside one engine.begin() block, whose SQL transaction
semantics we embed as: the body produces a new state that is committed
only when the body finishes without exception, and the prior state is kept
otherwise.  Failures of the individual SQL operations are an oracle.
-/

/-- The SQL operations upload_table issues inside the transaction. -/
inductive UpOp
  | dropTable
  | createTable
  | insertBatch (i : Nat)
deriving DecidableEq, Repr

/-- The warehouse state: table name to rows. -/
abbrev Db (α : Type) := List (String × List α)

/-- The conditional drop statement: IF OBJECT_ID(...) IS NOT NULL DROP. -/
def dbDrop (db : Db α) (tn : String) : Db α :=
  db.filter (fun p => p.1 != tn)

/-- df chunked into batches of size n, as to_sql does with chunksize n. -/
def chunkList (n : Nat) : List α → List (List α)
  | [] => []
  | x :: xs => (x :: xs.take (n - 1)) :: chunkList n (xs.drop (n - 1))
termination_by l => l.length
decreasing_by
  simp only [List.length_cons, List.length_drop]
  omega

/-- The batch inserts, in order: each either fails (raising out of the
transaction body) or appends its rows to the accumulated table. -/
def insertChunks (fails : UpOp → Bool) : List (List α) → Nat → List α → Except Err (List α)
  | [], _, acc => Except.ok acc
  | c :: cs, i, acc =>
    if fails (UpOp.insertBatch i) then Except.error "insert failed"
    else insertChunks fails cs (i + 1) (acc ++ c)

/-- The body of the engine.begin() block of upload_table: conditional
drop, typed create (to_sql refuses an existing table, which the preceding
drop makes impossible), then the chunked inserts. -/
def uploadBody (db : Db α) (tn : String) (rows : List α) (batch_size : Nat)
    (fails : UpOp → Bool) : Except Err (Db α) :=
  if fails UpOp.dropTable then Except.error "drop failed"
  else
    let db1 := dbDrop db tn
    if (db1.lookup tn).isSome then Except.error "table already exists"
    else if fails UpOp.createTable then Except.error "create failed"
    else
      match insertChunks fails (chunkList batch_size rows) 0 [] with
      | Except.error e => Except.error e
      | Except.ok tbl => Except.ok ((tn, tbl) :: db1)

/-- Embedding of upload_table: the transaction commits only when the body
succeeds; on an exception the with-block rolls back (prior state kept) and
the handler calls handle_error with action raise, re-raising, so the
return False line after it is dead code.  Returns the resulting warehouse
state and the Python return value or exception. -/
def upload_table (db : Db α) (tn : String) (rows : List α) (batch_size : Nat)
    (fails : UpOp → Bool) : Db α × Except Err Bool :=
  match uploadBody db tn rows batch_size fails with
  | Except.ok db2 => (db2, Except.ok true)
  | Except.error e =>
    match handle_error e ("Uploading table " ++ tn) "raise" with
    | Except.ok _ => (db, Except.ok false)
    | Except.error e2 => (db, Except.error e2)

/- ------------------------------------------------------------------
Part 7: scripts/load_db.py.

split_sql_statements, check_functions_exist and load_sql_scripts.  The
database side is an oracle: exec file stmt tells whether a statement
succeeds, dbFuncs is the list of scalar function names present in
sys.objects when the post-Functions.sql check runs (names in sys.objects
are unique within the schema), contents maps a script file name to its
text (none when the file is missing).  Every run produces a trace of
events so that ordering properties are statable.
-/

/-- Python whitespace (the class the regex \s and str.strip use). -/
def isSpaceChar (c : Char) : Bool :=
  c = ' ' || c = '\t' || c = '\n' || c = '\r' || c = '\x0b' || c = '\x0c'

/-- Drop the leading whitespace of a character list. -/
def dropSpaces : List Char → List Char
  | [] => []
  | c :: cs => if isSpaceChar c then dropSpaces cs else c :: cs

/-- Python str.strip on a character list. -/
def pyStripChars (cs : List Char) : List Char :=
  (dropSpaces (dropSpaces cs).reverse).reverse

/-- Python str.strip. -/
def pyStrip (s : String) : String :=
  String.mk (pyStripChars s.data)

/-- Does the needle occur at the head of the haystack. -/
def charsStartWith : List Char → List Char → Bool
  | [], _ => true
  | _ :: _, [] => false
  | n :: ns, h :: hs => n == h && charsStartWith ns hs

/-- Does the needle occur anywhere in the haystack. -/
def charsContain (needle : List Char) : List Char → Bool
  | [] => needle.isEmpty
  | c :: cs => charsStartWith needle (c :: cs) || charsContain needle cs

/-- Substring test, as the Python operator in on strings. -/
def strContains (hay needle : String) : Bool :=
  charsContain needle.data hay.data

/-- Python str.split with a one-character separator, on character
lists. -/
def splitListOn (sep : Char) : List Char → List (List Char)
  | [] => [[]]
  | c :: cs =>
    match splitListOn sep cs with
    | [] => [[c]]
    | b :: bs => if c == sep then [] :: b :: bs else (c :: b) :: bs

/-- ASCII lower-casing of one character, modelling re.IGNORECASE on the
ASCII separator token GO. -/
def charLower (c : Char) : Char :=
  if c.isUpper then Char.ofNat (c.toNat + 32) else c

/-- A line that the regex of split_sql_statements treats as a GO
separator: the line holds GO alone up to surrounding whitespace, matched
case-insensitively (re.IGNORECASE with re.MULTILINE anchors). -/
def isGoLine (line : String) : Bool :=
  (pyStripChars line.data).map charLower == ['g', 'o']

/-- The lines of a script grouped into batches, cut at every GO line. -/
def splitLinesOnGo : List (List Char) → List (List (List Char))
  | [] => [[]]
  | l :: ls =>
    match splitLinesOnGo ls with
    | [] => [[l]]
    | b :: bs =>
      if isGoLine (String.mk l) then [] :: b :: bs else (l :: b) :: bs

/-- Rejoin the lines of one batch with newlines. -/
def joinLines : List (List Char) → List Char
  | [] => []
  | [l] => l
  | l :: ls => l ++ '\n' :: joinLines ls

/-- The GO-mode batches: group the lines at GO separators, rejoin, strip,
and keep the non-empty batches. -/
def goBatches (script : String) : List String :=
  ((splitLinesOnGo (splitListOn '\n' script.data)).map
      (fun b => pyStrip (String.mk (joinLines b)))).filter (fun s => s != "")

/-- The semicolon-mode statements: split on every semicolon, strip, and
keep the non-empty statements. -/
def semiBatches (script : String) : List String :=
  ((splitListOn ';' script.data).map
      (fun cs => pyStrip (String.mk cs))).filter (fun s => s != "")

/-- Embedding of split_sql_statements: a file whose name contains the word
Function is split on GO separator lines, every other file on
semicolons. -/
def split_sql_statements (sql_script file_name : String) : List String :=
  if strContains file_name "Function" then goBatches sql_script
  else semiBatches sql_script

/-- The two scalar functions the builder expects. -/
def expectedFunctions : List String := ["fn_AmountCategory", "fn_AgeCategory"]

/-- Embedding of check_functions_exist: the sys.objects query returns the
rows whose name is one of the two expected functions; the check passes
when exactly two rows come back. -/
def check_functions_exist (dbFuncs : List String) : Bool :=
  (dbFuncs.filter (fun n => expectedFunctions.contains n)).length == 2

/-- A file whose statement failure aborts the file: Functions.sql by exact
name, and any file whose name contains View. -/
def criticalFile (file : String) : Bool :=
  file == "Functions.sql" || strContains file "View"

/-- The events of one builder run. -/
inductive DbEvent
  | execStmt (file stmt : String) (ok : Bool)
  | checkFuncs (ok : Bool)
deriving DecidableEq, Repr

/-- The error message carried out of a failing critical statement. -/
def stmtError (file stmt : String) : Err :=
  "Error in " ++ file ++ ": " ++ stmt

/-- Embedding of the per-file statement loop of load_sql_scripts: each
statement is stripped and skipped when empty, then executed; on failure a
critical file re-raises at once while any other file logs and continues.
The returned number counts the statements that succeeded. -/
def runStatements (exec : String → String → Bool) (file : String) :
    List String → List DbEvent × Except Err Nat
  | [] => ([], Except.ok 0)
  | s :: rest =>
    let st := pyStrip s
    if st = "" then runStatements exec file rest
    else if exec file st then
      let p := runStatements exec file rest
      (DbEvent.execStmt file st true :: p.1, p.2.map (fun n => n + 1))
    else if criticalFile file then
      ([DbEvent.execStmt file st false], Except.error (stmtError file st))
    else
      let p := runStatements exec file rest
      (DbEvent.execStmt file st false :: p.1, p.2)

/-- The fixed ordered script list of load_sql_scripts. -/
def sql_files : List String :=
  ["Adding primary keys and indexes.sql", "Functions.sql",
   "View dm_sessions.sql", "View dm_transactions.sql"]

/-- Embedding of the file loop of load_sql_scripts: a missing file is
fatal; each present file is split and executed; an error from the
statement loop propagates at once; after Functions.sql the builder runs
check_functions_exist and raises when it fails. -/
def processFiles (contents : String → Option String) (exec : String → String → Bool)
    (dbFuncs : List String) : List String → List DbEvent × Except Err Unit
  | [] => ([], Except.ok ())
  | f :: rest =>
    match contents f with
    | none => ([], Except.error ("SQL file " ++ f ++ " not found"))
    | some script =>
      match runStatements exec f (split_sql_statements script f) with
      | (tr, Except.error e) => (tr, Except.error e)
      | (tr, Except.ok _) =>
        if f = "Functions.sql" then
          if check_functions_exist dbFuncs then
            let p := processFiles contents exec dbFuncs rest
            (tr ++ DbEvent.checkFuncs true :: p.1, p.2)
          else
            (tr ++ [DbEvent.checkFuncs false], Except.error "Functions were not created properly")
        else
          let p := processFiles contents exec dbFuncs rest
          (tr ++ p.1, p.2)

/-- Embedding of load_sql_scripts over the fixed four-file list. -/
def load_sql_scripts (contents : String → Option String) (exec : String → String → Bool)
    (dbFuncs : List String) : List DbEvent × Except Err Unit :=
  processFiles contents exec dbFuncs sql_files

/-- Concrete statement executor that fails exactly on the statement BAD. -/
def c6Exec : String → String → Bool := fun _ s => s != "BAD"

/-- Concrete script store: every file holds the single statement CREATE x. -/
def allOkContents : String → Option String := fun _ => some "CREATE x"

/-- Concrete statement executor on which every statement succeeds. -/
def allOkExec : String → String → Bool := fun _ _ => true

/- ------------------------------------------------------------------
Theorems.
-/

/-- C1: the spec states that a stage whose body raises is skipped with a
logged error, all seven stages are still attempted exactly once, and the
pipeline reports success.  The code contradicts this: the stage-level
except handlers call handle_error without passing action, whose default is
raise, so the first stage error re-raises, aborts the loop, and propagates
out of main; the skip branch of handle_error is never reached from main.
With the transactions stage raising, only one of the seven stages is
attempted and the run errors, while a run with no stage error attempts all
seven and succeeds. -/
theorem c1_stage_error_aborts_pipeline :
    etl_main firstStageFails =
      (["transactions"], Except.error "FileNotFoundError: transactions.csv") ∧
    etl_stages.length = 7 ∧
    "transactions_prods" ∉ (etl_main firstStageFails).1 ∧
    "sessions" ∉ (etl_main firstStageFails).1 ∧
    etl_main (fun _ => none) = (etl_stages, Except.ok ()) := by
  refine ⟨rfl, rfl, ?_, ?_, rfl⟩ <;> decide

/-- C4: for every transactions row, has_free_shipping equals 1 exactly
when shipment_fee is zero and has_promo equals 1 exactly when promo_amount
is strictly positive; both are functions of those single fields alone. -/
theorem c4_derived_indicators :
    ∀ shipment_fee promo_amount : Rat,
      (has_free_shipping shipment_fee = 1 ↔ shipment_fee = 0) ∧
      (has_promo promo_amount = 1 ↔ 0 < promo_amount) := by
  intro f p
  constructor
  · unfold has_free_shipping
    split <;> simp_all
  · unfold has_promo
    split <;> simp_all

/-- C2 counterexample: an order whose product encoding is a string that
does not parse makes parse_and_explode_products raise (the claim says it
never errors), and an order whose cell is a non-list non-string value
(for example NaN) yields one all-null row, not zero rows. -/
theorem c2_counterexample :
    parse_and_explode_products
        [{ booking_id := "B1", product_metadata := MetaCell.mstr none }] =
      Except.error "malformed node or string" ∧
    parse_and_explode_products
        [{ booking_id := "B2", product_metadata := MetaCell.mother }] =
      Except.ok [{ booking_id := "B2", product_id := none, quantity := none,
                   item_price := none, product_amount := none }] :=
  ⟨rfl, rfl⟩

/-- C3 counterexample: session s1 exists in the output (it has one CLICK
event) and has zero SEARCH events, yet its SEARCH count cell is the number
0, not null: pandas count of an all-NaN group is 0.  Only the first and
last time cells are null. -/
theorem c3_counterexample :
    sessionRows c3Df "s1" "web" ≠ [] ∧
    (∀ r ∈ sessionRows c3Df "s1" "web", r.event_name ≠ "SEARCH") ∧
    "SEARCH" ∈ event_types ∧
    typeAgg c3Df "s1" "web" "SEARCH" =
      { cnt := some 0, first_time := none, last_time := none } ∧
    (typeAgg c3Df "s1" "web" "SEARCH").cnt ≠ none := by
  refine ⟨?_, ?_, ?_, ?_, ?_⟩ <;> decide

/-- Helper: mapExcept succeeds pointwise when every element maps to ok. -/
theorem mapExcept_ok_of_forall (f : α → Except Err β) (g : α → β) :
    ∀ l : List α, (∀ a ∈ l, f a = Except.ok (g a)) →
      mapExcept f l = Except.ok (l.map g) := by
  intro l
  induction l with
  | nil => intro _; rfl
  | cons a as ih =>
    intro h
    have ha := h a (by simp)
    have hrest := ih (fun x hx => h x (by simp [hx]))
    unfold mapExcept
    rw [ha, hrest]
    rfl

/-- Helper: when every product encoding parses, parse_and_explode_products
succeeds and its output is the per-row concatenation of lineRowsOfRow. -/
theorem parse_explode_ok (df : List OrderRow)
    (h : ∀ r ∈ df, ∃ p, safe_parse r.product_metadata = Except.ok p) :
    parse_and_explode_products df = Except.ok (df.flatMap lineRowsOfRow) := by
  induction df with
  | nil => rfl
  | cons r rs ih =>
    obtain ⟨p, hp⟩ := h r (by simp)
    have ihr := ih (fun x hx => h x (by simp [hx]))
    unfold parse_and_explode_products at ihr ⊢
    cases hm : mapExcept (fun r => (safe_parse r.product_metadata).map
        (fun p => (r.booking_id, p))) rs with
    | error e => rw [hm] at ihr; simp at ihr
    | ok parsed =>
      rw [hm] at ihr
      simp only [Except.ok.injEq] at ihr
      simp only [mapExcept]
      rw [show (safe_parse r.product_metadata).map (fun p => (r.booking_id, p)) =
            Except.ok (r.booking_id, p) from by rw [hp]; rfl]
      rw [hm]
      simp [lineRowsOfRow, hp, ihr]

/-- C2 (amended): when every product encoding parses, the explosion
succeeds and produces, for each order row, exactly the rows of
lineRowsOfRow; the number of rows for an order equals the length of its
parsed list when that list is non-empty, and is one (a single all-null
row, never zero) when the parsed list is empty, when the parse result is
not a list, or when the cell is a non-string non-list value.  A string
cell on which literal_eval raises propagates the error (the
counterexample). -/
theorem c2_rowcounts (df : List OrderRow)
    (h : ∀ r ∈ df, ∃ p, safe_parse r.product_metadata = Except.ok p) :
    parse_and_explode_products df = Except.ok (df.flatMap lineRowsOfRow) ∧
    ∀ r ∈ df, (lineRowsOfRow r).length = expectedLineCount r.product_metadata ∧
      1 ≤ expectedLineCount r.product_metadata := by
  constructor
  · exact parse_explode_ok df h
  · intro r hr
    obtain ⟨p, hp⟩ := h r hr
    unfold lineRowsOfRow expectedLineCount
    rw [hp]
    cases p with
    | clist xs =>
      cases xs with
      | nil => simp [lineRowsOf, explodeCell]
      | cons x xs => simp [lineRowsOf, explodeCell]
    | cscalar => simp [lineRowsOf, explodeCell]

/-- C2 witness: the amended theorem applied to the three-order scenario
(order A with a two-element list, order B with a NaN cell, order C with a
one-element list), every hypothesis discharged by evaluation. -/
theorem c2_rowcounts_witness :
    parse_and_explode_products c2ScenarioDf =
      Except.ok (c2ScenarioDf.flatMap lineRowsOfRow) ∧
    ∀ r ∈ c2ScenarioDf,
      (lineRowsOfRow r).length = expectedLineCount r.product_metadata ∧
      1 ≤ expectedLineCount r.product_metadata :=
  c2_rowcounts c2ScenarioDf (by intro r hr; fin_cases hr <;> exact ⟨_, rfl⟩)

/-- Helper: the non-null entries of the masked column of event type e are
exactly the event times of the rows whose event_name is e. -/
theorem maskedTime_filterMap (e : String) :
    ∀ rows : List ClickRow,
      (rows.map (maskedTime e)).filterMap id =
        (rows.filter (fun r => r.event_name == e)).map ClickRow.event_time := by
  intro rows
  induction rows with
  | nil => rfl
  | cons r rs ih =>
    by_cases hre : r.event_name = e
    · simp [maskedTime, hre, List.filter_cons, ih]
    · simp [maskedTime, hre, List.filter_cons, ih]

/-- C3 (amended): for every session present in the output and every
non-terminal event type e, the three aggregate cells of e are computed
from the rows of type e of that session alone (no cross-type
contamination); when the session has zero events of type e its count cell
is the number 0 (not null) and its first and last time cells are null. -/
theorem c3_session_agg (df : List ClickRow) (sid ts e : String)
    (h1 : e ∈ event_types) (h2 : e ≠ "ADD_PROMO") (h3 : e ≠ "BOOKING")
    (hsess : sessionRows df sid ts ≠ []) :
    typeAgg df sid ts e =
      { cnt := some ((sessionRows df sid ts).filter (fun r => r.event_name == e)).length,
        first_time := (((sessionRows df sid ts).filter
          (fun r => r.event_name == e)).map ClickRow.event_time).min?,
        last_time := (((sessionRows df sid ts).filter
          (fun r => r.event_name == e)).map ClickRow.event_time).max? } ∧
    ((sessionRows df sid ts).filter (fun r => r.event_name == e) = [] →
      typeAgg df sid ts e = { cnt := some 0, first_time := none, last_time := none }) := by
  have hmain : typeAgg df sid ts e =
      { cnt := some ((sessionRows df sid ts).filter (fun r => r.event_name == e)).length,
        first_time := (((sessionRows df sid ts).filter
          (fun r => r.event_name == e)).map ClickRow.event_time).min?,
        last_time := (((sessionRows df sid ts).filter
          (fun r => r.event_name == e)).map ClickRow.event_time).max? } := by
    simp only [typeAgg, aggCount, aggMin, aggMax]
    rw [maskedTime_filterMap]
    simp
  refine ⟨hmain, fun hempty => ?_⟩
  rw [hmain, hempty]
  rfl

/-- C3 witness: the amended theorem applied to the one-CLICK-event session
with e the SEARCH type, every hypothesis discharged by evaluation. -/
theorem c3_session_agg_witness :
    typeAgg c3Df "s1" "web" "SEARCH" =
      { cnt := some ((sessionRows c3Df "s1" "web").filter
          (fun r => r.event_name == "SEARCH")).length,
        first_time := (((sessionRows c3Df "s1" "web").filter
          (fun r => r.event_name == "SEARCH")).map ClickRow.event_time).min?,
        last_time := (((sessionRows c3Df "s1" "web").filter
          (fun r => r.event_name == "SEARCH")).map ClickRow.event_time).max? } ∧
    ((sessionRows c3Df "s1" "web").filter (fun r => r.event_name == "SEARCH") = [] →
      typeAgg c3Df "s1" "web" "SEARCH" =
        { cnt := some 0, first_time := none, last_time := none }) :=
  c3_session_agg c3Df "s1" "web" "SEARCH" (by decide) (by decide) (by decide) (by decide)

/-- Helper: every element of a successful mapExcept output is the image of
some input element. -/
theorem mapExcept_ok_mem (f : α → Except Err β) :
    ∀ (l : List α) (out : List β), mapExcept f l = Except.ok out →
      ∀ b ∈ out, ∃ a, a ∈ l ∧ f a = Except.ok b := by
  intro l
  induction l with
  | nil =>
    intro out h b hb
    simp only [mapExcept, Except.ok.injEq] at h
    rw [← h] at hb
    simp at hb
  | cons a as ih =>
    intro out h b hb
    unfold mapExcept at h
    cases hfa : f a with
    | error e => rw [hfa] at h; simp at h
    | ok b0 =>
      rw [hfa] at h
      cases hrest : mapExcept f as with
      | error e => rw [hrest] at h; simp at h
      | ok bs =>
        rw [hrest] at h
        simp only [Except.ok.injEq] at h
        rw [← h] at hb
        cases List.mem_cons.mp hb with
        | inl hb0 =>
          exact ⟨a, by simp, by rw [hfa, hb0]⟩
        | inr hbs =>
          obtain ⟨x, hx, hfx⟩ := ih bs hrest b hbs
          exact ⟨x, by simp [hx], hfx⟩

/-- C5: every row of the add-to-cart event table comes from an input row
whose event type equals ADD_TO_CART (it is the flattening of that row with
its parsed metadata), so no row of a different event type appears in the
output. -/
theorem c5_event_table_provenance (df : List CSRow) (out : List EventRow)
    (h : make_event_table df "ADD_TO_CART" = Except.ok out) :
    ∀ r ∈ out, ∃ s, s ∈ df ∧ s.event_name = "ADD_TO_CART" ∧
      ∃ m, s.event_metadata = some m ∧ r = flattenRow s m := by
  intro r hr
  obtain ⟨s, hs, hfs⟩ := mapExcept_ok_mem parseMetadata _ out h r hr
  have hmem := List.mem_filter.mp hs
  refine ⟨s, hmem.1, by simpa using hmem.2, ?_⟩
  cases hsm : s.event_metadata with
  | none => unfold parseMetadata at hfs; rw [hsm] at hfs; simp at hfs
  | some m =>
    unfold parseMetadata at hfs
    rw [hsm] at hfs
    simp only [Except.ok.injEq] at hfs
    exact ⟨m, rfl, hfs.symm⟩

/-- C5 witness: the provenance theorem applied to the two-row clickstream,
whose add-to-cart table evaluates to the single flattened row. -/
theorem c5_event_table_witness :
    ∃ s, s ∈ c5Df ∧ s.event_name = "ADD_TO_CART" ∧
      ∃ m, s.event_metadata = some m ∧ c5OutRow = flattenRow s m :=
  c5_event_table_provenance c5Df [c5OutRow] rfl c5OutRow (by decide)

/-- Helper: rechunking preserves the rows in order. -/
theorem chunkList_flatten (n : Nat) : (l : List α) → (chunkList n l).flatten = l
  | [] => by simp [chunkList]
  | x :: xs => by
    rw [chunkList]
    rw [List.flatten_cons]
    rw [chunkList_flatten n (xs.drop (n - 1))]
    simp [List.take_append_drop]
termination_by l => l.length
decreasing_by
  simp only [List.length_cons, List.length_drop]
  omega

/-- Helper: a successful chunked insert appends every chunk in order. -/
theorem insertChunks_ok (fails : UpOp → Bool) :
    ∀ (cs : List (List α)) (i : Nat) (acc r : List α),
      insertChunks fails cs i acc = Except.ok r → r = acc ++ cs.flatten := by
  intro cs
  induction cs with
  | nil =>
    intro i acc r h
    simp only [insertChunks, Except.ok.injEq] at h
    simp [← h]
  | cons c cs ih =>
    intro i acc r h
    unfold insertChunks at h
    split at h
    · simp at h
    · have := ih (i + 1) (acc ++ c) r h
      simp [this, List.flatten_cons, List.append_assoc]

/-- Helper: after the conditional drop the destination name is absent, so
the create of to_sql cannot hit an existing table. -/
theorem lookup_dbDrop (db : Db α) (tn : String) : (dbDrop db tn).lookup tn = none := by
  induction db with
  | nil => rfl
  | cons p ps ih =>
    obtain ⟨k, v⟩ := p
    unfold dbDrop at ih ⊢
    by_cases h : k = tn
    · simpa [List.filter_cons, h] using ih
    · have hne : (tn == k) = false := by simp [Ne.symm h]
      simp [List.filter_cons, List.lookup, h, hne, ih]

/-- C10: upload_table runs the drop, the typed create and every batch
insert inside one transaction, so an error leaves the warehouse exactly as
it was (no partially loaded table is committed); a successful call returns
True with the destination table holding exactly the provided rows; the
return False path after the re-raising error handler is unreachable, so
the result is never ok false. -/
theorem c10_upload_table_transactional :
    ∀ (α : Type) (db : Db α) (tn : String) (rows : List α) (batch_size : Nat)
      (fails : UpOp → Bool),
      match upload_table db tn rows batch_size fails with
      | (db2, Except.ok b) => b = true ∧ db2.lookup tn = some rows
      | (db2, Except.error _) => db2 = db := by
  intro α db tn rows batch_size fails
  unfold upload_table
  cases hb : uploadBody db tn rows batch_size fails with
  | error e => simp [handle_error]
  | ok db2 =>
    simp only []
    unfold uploadBody at hb
    simp only [lookup_dbDrop, Option.isSome_none, Bool.false_eq_true, if_false] at hb
    split at hb
    · simp at hb
    · split at hb
      · simp at hb
      · split at hb
        · simp at hb
        · rename_i tbl heq
          simp only [Except.ok.injEq] at hb
          have htbl : tbl = rows := by
            have h2 := insertChunks_ok fails (chunkList batch_size rows) 0 [] tbl heq
            simpa [chunkList_flatten] using h2
          refine ⟨trivial, ?_⟩
          rw [← hb, htbl]
          simp [List.lookup]

/-- C8: split_sql_statements splits a script whose filename contains the
word Function (in particular the functions script) on a GO separator line
matched case-insensitively, splits every other script on semicolons, and
in both modes returns only non-empty trimmed statements. -/
theorem c8_split_policy :
    ∀ (sql_script file_name : String),
      (∀ s ∈ split_sql_statements sql_script file_name, s ≠ "" ∧ ∃ t, s = pyStrip t) ∧
      (strContains file_name "Function" = true →
        split_sql_statements sql_script file_name = goBatches sql_script) ∧
      (strContains file_name "Function" = false →
        split_sql_statements sql_script file_name = semiBatches sql_script) ∧
      strContains "Functions.sql" "Function" = true ∧
      strContains "Adding primary keys and indexes.sql" "Function" = false ∧
      isGoLine "GO" = true ∧ isGoLine "go" = true ∧ isGoLine "  Go  " = true ∧
      isGoLine "GO EXTRA" = false ∧ isGoLine "" = false := by
  intro sql_script file_name
  refine ⟨?_, fun hf => by simp [split_sql_statements, hf],
    fun hf => by simp [split_sql_statements, hf],
    by decide, by decide, by decide, by decide, by decide, by decide, by decide⟩
  intro s hs
  unfold split_sql_statements at hs
  by_cases hf : strContains file_name "Function" = true
  · rw [if_pos hf] at hs
    unfold goBatches at hs
    have h1 := List.mem_filter.mp hs
    obtain ⟨b, hb, hba⟩ := List.mem_map.mp h1.1
    exact ⟨by simpa using h1.2, String.mk (joinLines b), hba.symm⟩
  · rw [if_neg hf] at hs
    unfold semiBatches at hs
    have h1 := List.mem_filter.mp hs
    obtain ⟨b, hb, hba⟩ := List.mem_map.mp h1.1
    exact ⟨by simpa using h1.2, String.mk b, hba.symm⟩

/-- Helper: on a file that is neither Functions.sql nor a view script
(such as the index script), every non-empty trimmed statement is attempted
regardless of failures and the loop always finishes with ok. -/
theorem runStatements_noncritical (exec : String → String → Bool) (file : String)
    (hnc : criticalFile file = false) :
    ∀ stmts : List String,
      (runStatements exec file stmts).1 =
        stmts.filterMap (fun t => if pyStrip t = "" then none
          else some (DbEvent.execStmt file (pyStrip t) (exec file (pyStrip t)))) ∧
      ∃ n, (runStatements exec file stmts).2 = Except.ok n := by
  intro stmts
  induction stmts with
  | nil => exact ⟨rfl, 0, rfl⟩
  | cons s rest ih =>
    obtain ⟨ih1, n, ih2⟩ := ih
    by_cases hst : pyStrip s = ""
    · refine ⟨?_, n, ?_⟩ <;>
        simp [runStatements, hst, List.filterMap_cons, ih1, ih2]
    · cases hex : exec file (pyStrip s)
      · refine ⟨?_, n, ?_⟩ <;>
          simp [runStatements, hst, hex, hnc, List.filterMap_cons, ih1, ih2]
      · refine ⟨?_, n + 1, ?_⟩ <;>
          simp [runStatements, hst, hex, List.filterMap_cons, Except.map, ih1, ih2]

/-- Helper: on a critical file (Functions.sql or a view script) the first
failing statement stops the loop at once: the statements before it run, it
is attempted and fails, and nothing after it is attempted; the loop
returns the error. -/
theorem runStatements_critical (exec : String → String → Bool) (file : String)
    (hcrit : criticalFile file = true) :
    ∀ (pre : List String) (s : String) (post : List String),
      (∀ t ∈ pre, pyStrip t ≠ "" ∧ exec file (pyStrip t) = true) →
      pyStrip s ≠ "" → exec file (pyStrip s) = false →
      runStatements exec file (pre ++ s :: post) =
        (pre.map (fun t => DbEvent.execStmt file (pyStrip t) true) ++
           [DbEvent.execStmt file (pyStrip s) false],
         Except.error (stmtError file (pyStrip s))) := by
  intro pre
  induction pre with
  | nil =>
    intro s post hpre hs hf
    simp [runStatements, hs, hf, hcrit]
  | cons t ts ih =>
    intro s post hpre hs hf
    have ht := hpre t (by simp)
    have ihr := ih s post (fun x hx => hpre x (by simp [hx])) hs hf
    simp [runStatements, ht.1, ht.2, ihr, Except.map]

/-- C6: inside the builder, a failing statement in the functions script or
in any view script aborts that file at once (the earlier statements ran,
the failing one was attempted, nothing after it runs) and the error
propagates as fatal out of load_sql_scripts; a failing statement in the
primary-key/index script is logged and skipped, every other statement of
that file still runs, and the file finishes with ok. -/
theorem c6_statement_failure_policy (exec : String → String → Bool) (file : String)
    (pre post : List String) (s : String)
    (hcrit : criticalFile file = true)
    (hpre : ∀ t ∈ pre, pyStrip t ≠ "" ∧ exec file (pyStrip t) = true)
    (hs : pyStrip s ≠ "") (hfail : exec file (pyStrip s) = false) :
    runStatements exec file (pre ++ s :: post) =
      (pre.map (fun t => DbEvent.execStmt file (pyStrip t) true) ++
         [DbEvent.execStmt file (pyStrip s) false],
       Except.error (stmtError file (pyStrip s))) ∧
    (∀ stmts : List String,
      (runStatements exec "Adding primary keys and indexes.sql" stmts).1 =
        stmts.filterMap (fun t => if pyStrip t = "" then none
          else some (DbEvent.execStmt "Adding primary keys and indexes.sql" (pyStrip t)
            (exec "Adding primary keys and indexes.sql" (pyStrip t)))) ∧
      ∃ n, (runStatements exec "Adding primary keys and indexes.sql" stmts).2 =
        Except.ok n) ∧
    (∀ (contents : String → Option String) (dbFuncs : List String)
       (idxScript fnScript : String),
      file = "Functions.sql" →
      contents "Adding primary keys and indexes.sql" = some idxScript →
      contents "Functions.sql" = some fnScript →
      split_sql_statements fnScript "Functions.sql" = pre ++ s :: post →
      (load_sql_scripts contents exec dbFuncs).2 =
        Except.error (stmtError file (pyStrip s))) := by
  refine ⟨runStatements_critical exec file hcrit pre s post hpre hs hfail,
    runStatements_noncritical exec "Adding primary keys and indexes.sql" (by decide),
    ?_⟩
  intro contents dbFuncs idxScript fnScript hfe h1 h2 hsplit
  subst hfe
  unfold load_sql_scripts sql_files
  simp only [processFiles, h1, h2]
  cases hr1 : runStatements exec "Adding primary keys and indexes.sql"
      (split_sql_statements idxScript "Adding primary keys and indexes.sql") with
  | mk t1 r1 =>
    have hok1 := (runStatements_noncritical exec "Adding primary keys and indexes.sql"
      (by decide)
      (split_sql_statements idxScript "Adding primary keys and indexes.sql")).2
    rw [hr1] at hok1
    obtain ⟨n1, hok1⟩ := hok1
    simp only [] at hok1
    subst hok1
    have habort := runStatements_critical exec "Functions.sql" hcrit pre s post hpre hs hfail
    rw [← hsplit] at habort
    simp [habort]

/-- C6 witness: the failure-policy theorem applied to the Functions.sql
file with statements CREATE FUNCTION a, BAD, CREATE FUNCTION b under the
executor that fails exactly on BAD; every hypothesis discharged by
evaluation. -/
theorem c6_statement_failure_policy_witness :
    runStatements c6Exec "Functions.sql"
        (["CREATE FUNCTION a"] ++ "BAD" :: ["CREATE FUNCTION b"]) =
      (["CREATE FUNCTION a"].map
          (fun t => DbEvent.execStmt "Functions.sql" (pyStrip t) true) ++
         [DbEvent.execStmt "Functions.sql" (pyStrip "BAD") false],
       Except.error (stmtError "Functions.sql" (pyStrip "BAD"))) ∧
    (∀ stmts : List String,
      (runStatements c6Exec "Adding primary keys and indexes.sql" stmts).1 =
        stmts.filterMap (fun t => if pyStrip t = "" then none
          else some (DbEvent.execStmt "Adding primary keys and indexes.sql" (pyStrip t)
            (c6Exec "Adding primary keys and indexes.sql" (pyStrip t)))) ∧
      ∃ n, (runStatements c6Exec "Adding primary keys and indexes.sql" stmts).2 =
        Except.ok n) ∧
    (∀ (contents : String → Option String) (dbFuncs : List String)
       (idxScript fnScript : String),
      "Functions.sql" = "Functions.sql" →
      contents "Adding primary keys and indexes.sql" = some idxScript →
      contents "Functions.sql" = some fnScript →
      split_sql_statements fnScript "Functions.sql" =
        ["CREATE FUNCTION a"] ++ "BAD" :: ["CREATE FUNCTION b"] →
      (load_sql_scripts contents c6Exec dbFuncs).2 =
        Except.error (stmtError "Functions.sql" (pyStrip "BAD"))) :=
  c6_statement_failure_policy c6Exec "Functions.sql"
    ["CREATE FUNCTION a"] ["CREATE FUNCTION b"] "BAD"
    (by decide) (by decide) (by decide) (by decide)

/-- Helper: the length of the filtered sys.objects result is the number of
occurrences of the two expected names. -/
theorem filter_expected_length :
    ∀ l : List String,
      (l.filter (fun n => expectedFunctions.contains n)).length =
        l.count "fn_AmountCategory" + l.count "fn_AgeCategory" := by
  intro l
  induction l with
  | nil => rfl
  | cons x xs ih =>
    by_cases hA : x = "fn_AmountCategory"
    · subst hA
      simp [List.filter_cons, expectedFunctions, List.count_cons] at ih ⊢
      omega
    · by_cases hB : x = "fn_AgeCategory"
      · subst hB
        simp [List.filter_cons, expectedFunctions, List.count_cons] at ih ⊢
        omega
      · simp [List.filter_cons, expectedFunctions, List.count_cons, hA, hB] at ih ⊢
        omega

/-- Helper: in a duplicate-free list the count of an element is one when
present and zero otherwise. -/
theorem count_nodup_mem (l : List String) (hnd : l.Nodup) (a : String) :
    l.count a = if a ∈ l then 1 else 0 := by
  induction l with
  | nil => simp
  | cons x xs ih =>
    rw [List.nodup_cons] at hnd
    have ih2 := ih hnd.2
    by_cases hx : x = a
    · subst hx
      simp [List.count_cons, hnd.1, ih2]
    · simp [List.count_cons, hx, Ne.symm hx, ih2]

/-- Helper: since sys.objects names are unique, the two-row check passes
exactly when both expected functions are present. -/
theorem check_functions_exist_iff (dbFuncs : List String) (hnd : dbFuncs.Nodup) :
    check_functions_exist dbFuncs = true ↔
      ("fn_AmountCategory" ∈ dbFuncs ∧ "fn_AgeCategory" ∈ dbFuncs) := by
  unfold check_functions_exist
  rw [filter_expected_length]
  rw [count_nodup_mem dbFuncs hnd, count_nodup_mem dbFuncs hnd]
  by_cases h1 : "fn_AmountCategory" ∈ dbFuncs <;>
    by_cases h2 : "fn_AgeCategory" ∈ dbFuncs <;>
      simp [h1, h2]

/-- C7: when the index script is present and the functions script runs
with no statement error, but the post-script metadata check does not find
both expected scalar functions, load_sql_scripts raises a fatal error (the
run ends with a failed verification event and the error propagates). -/
theorem c7_function_check_fatal (contents : String → Option String)
    (exec : String → String → Bool) (dbFuncs : List String)
    (idxScript fnScript : String) (n : Nat)
    (h1 : contents "Adding primary keys and indexes.sql" = some idxScript)
    (h2 : contents "Functions.sql" = some fnScript)
    (hnd : dbFuncs.Nodup)
    (hok : (runStatements exec "Functions.sql"
      (split_sql_statements fnScript "Functions.sql")).2 = Except.ok n)
    (hmiss : ¬("fn_AmountCategory" ∈ dbFuncs ∧ "fn_AgeCategory" ∈ dbFuncs)) :
    ∃ tr, load_sql_scripts contents exec dbFuncs =
      (tr ++ [DbEvent.checkFuncs false],
       Except.error "Functions were not created properly") := by
  have hchk : check_functions_exist dbFuncs = false := by
    cases hc : check_functions_exist dbFuncs
    · rfl
    · exact absurd ((check_functions_exist_iff dbFuncs hnd).mp hc) hmiss
  unfold load_sql_scripts sql_files
  simp only [processFiles, h1, h2]
  cases hr1 : runStatements exec "Adding primary keys and indexes.sql"
      (split_sql_statements idxScript "Adding primary keys and indexes.sql") with
  | mk t1 r1 =>
    have hok1 := (runStatements_noncritical exec "Adding primary keys and indexes.sql"
      (by decide) (split_sql_statements idxScript "Adding primary keys and indexes.sql")).2
    rw [hr1] at hok1
    obtain ⟨n1, hok1⟩ := hok1
    simp only [] at hok1
    subst hok1
    cases hr2 : runStatements exec "Functions.sql"
        (split_sql_statements fnScript "Functions.sql") with
    | mk t2 r2 =>
      rw [hr2] at hok
      simp only [] at hok
      subst hok
      refine ⟨t1 ++ t2, ?_⟩
      simp [hchk, List.append_assoc]

/-- C7 witness: the fatal-check theorem applied to the store where every
file holds CREATE x, the all-success executor and a database holding only
fn_AmountCategory; every hypothesis discharged by evaluation. -/
theorem c7_function_check_fatal_witness :
    ∃ tr, load_sql_scripts allOkContents allOkExec ["fn_AmountCategory"] =
      (tr ++ [DbEvent.checkFuncs false],
       Except.error "Functions were not created properly") :=
  c7_function_check_fatal allOkContents allOkExec ["fn_AmountCategory"]
    "CREATE x" "CREATE x" 1 rfl rfl (by decide) rfl (by decide)

/-- Helper: every trace event of the statement loop is an execution event
of its own file. -/
theorem runStatements_events (exec : String → String → Bool) (file : String) :
    ∀ (stmts : List String) (ev : DbEvent),
      ev ∈ (runStatements exec file stmts).1 →
      ∃ s b, ev = DbEvent.execStmt file s b := by
  intro stmts
  induction stmts with
  | nil => intro ev hev; simp [runStatements] at hev
  | cons s rest ih =>
    intro ev hev
    by_cases hst : pyStrip s = ""
    · simp only [runStatements, hst, if_true] at hev
      exact ih ev (by simpa using hev)
    · cases hex : exec file (pyStrip s)
      · by_cases hcf : criticalFile file = true
        · simp [runStatements, hst, hex, hcf] at hev
          exact ⟨pyStrip s, false, hev⟩
        · simp [runStatements, hst, hex, hcf] at hev
          cases hev with
          | inl h => exact ⟨pyStrip s, false, h⟩
          | inr h => exact ih ev h
      · simp [runStatements, hst, hex] at hev
        cases hev with
        | inl h => exact ⟨pyStrip s, true, h⟩
        | inr h => exact ih ev h

/-- Helper: an execution event found in a statement-loop trace names the
file of that loop. -/
theorem runStatements_mem_file (exec : String → String → Bool) (g : String)
    (stmts : List String) (tr : List DbEvent) (r : Except Err Nat)
    (hr : runStatements exec g stmts = (tr, r))
    (f s : String) (b : Bool) (hmem : DbEvent.execStmt f s b ∈ tr) : f = g := by
  have h := runStatements_events exec g stmts (DbEvent.execStmt f s b)
    (by rw [hr]; exact hmem)
  obtain ⟨s2, b2, heq⟩ := h
  injection heq with hf hs hb

/-- Helper: every trace event of the file loop is either an execution
event of one of the processed files or a verification event, the latter
only when Functions.sql is among the files. -/
theorem processFiles_events (contents : String → Option String)
    (exec : String → String → Bool) (dbFuncs : List String) :
    ∀ (files : List String) (ev : DbEvent),
      ev ∈ (processFiles contents exec dbFuncs files).1 →
      (∃ f, f ∈ files ∧ ∃ s b, ev = DbEvent.execStmt f s b) ∨
      (∃ ok, ev = DbEvent.checkFuncs ok ∧ "Functions.sql" ∈ files) := by
  intro files
  induction files with
  | nil => intro ev hev; simp [processFiles] at hev
  | cons f rest ih =>
    intro ev hev
    cases hc : contents f
    · simp [processFiles, hc] at hev
    · rename_i script
      cases hr : runStatements exec f (split_sql_statements script f) with
      | mk tr r =>
        cases r with
        | error e =>
          simp [processFiles, hc, hr] at hev
          obtain ⟨s, b, rfl⟩ := runStatements_events exec f
            (split_sql_statements script f) ev (by rw [hr]; exact hev)
          exact Or.inl ⟨f, by simp, s, b, rfl⟩
        | ok n =>
          by_cases hf : f = "Functions.sql"
          · subst hf
            by_cases hchk : check_functions_exist dbFuncs = true
            · simp [processFiles, hc, hr, hchk] at hev
              rcases hev with h | h | h
              · obtain ⟨s, b, rfl⟩ := runStatements_events exec "Functions.sql"
                  (split_sql_statements script "Functions.sql") ev (by rw [hr]; exact h)
                exact Or.inl ⟨"Functions.sql", by simp, s, b, rfl⟩
              · exact Or.inr ⟨true, h, by simp⟩
              · rcases ih ev h with ⟨g, hg, hrest⟩ | ⟨ok2, hok2, hm⟩
                · exact Or.inl ⟨g, by simp [hg], hrest⟩
                · exact Or.inr ⟨ok2, hok2, by simp⟩
            · simp [processFiles, hc, hr, hchk] at hev
              rcases hev with h | h
              · obtain ⟨s, b, rfl⟩ := runStatements_events exec "Functions.sql"
                  (split_sql_statements script "Functions.sql") ev (by rw [hr]; exact h)
                exact Or.inl ⟨"Functions.sql", by simp, s, b, rfl⟩
              · exact Or.inr ⟨false, h, by simp⟩
          · simp [processFiles, hc, hr, hf] at hev
            rcases hev with h | h
            · obtain ⟨s, b, rfl⟩ := runStatements_events exec f
                (split_sql_statements script f) ev (by rw [hr]; exact h)
              exact Or.inl ⟨f, by simp, s, b, rfl⟩
            · rcases ih ev h with ⟨g, hg, hrest⟩ | ⟨ok2, hok2, hm⟩
              · exact Or.inl ⟨g, by simp [hg], hrest⟩
              · exact Or.inr ⟨ok2, hok2, by simp [hm]⟩

/-- C9: in every builder run whose trace executes a statement of a view
script, the trace decomposes around a successful function-verification
event: everything before it is non-view execution (the index and functions
scripts), the view statement comes after it, and no Functions.sql
statement executes after it — so no view-script statement ever runs before
the functions script has completed and its two functions are verified. -/
theorem c9_views_after_verification (contents : String → Option String)
    (exec : String → String → Bool) (dbFuncs : List String)
    (f s : String) (b : Bool)
    (hview : strContains f "View" = true)
    (hmem : DbEvent.execStmt f s b ∈ (load_sql_scripts contents exec dbFuncs).1) :
    ∃ pre suf,
      (load_sql_scripts contents exec dbFuncs).1 =
        pre ++ DbEvent.checkFuncs true :: suf ∧
      DbEvent.execStmt f s b ∈ suf ∧
      (∀ f2 s2 b2, DbEvent.execStmt f2 s2 b2 ∈ pre → strContains f2 "View" = false) ∧
      (∀ s2 b2, DbEvent.execStmt "Functions.sql" s2 b2 ∉ suf) := by
  cases hc1 : contents "Adding primary keys and indexes.sql"
  · exfalso
    unfold load_sql_scripts sql_files at hmem
    simp [processFiles, hc1] at hmem
  · rename_i idxScript
    cases hr1 : runStatements exec "Adding primary keys and indexes.sql"
        (split_sql_statements idxScript "Adding primary keys and indexes.sql") with
    | mk t1 r1 =>
      have hok1 := (runStatements_noncritical exec "Adding primary keys and indexes.sql"
        (by decide) (split_sql_statements idxScript "Adding primary keys and indexes.sql")).2
      rw [hr1] at hok1
      obtain ⟨n1, hok1⟩ := hok1
      simp only [] at hok1
      subst hok1
      have ht1 : ∀ s2 b2 f2, DbEvent.execStmt f2 s2 b2 ∈ t1 →
          f2 = "Adding primary keys and indexes.sql" :=
        fun s2 b2 f2 h => runStatements_mem_file exec _ _ _ _ hr1 f2 s2 b2 h
      cases hc2 : contents "Functions.sql"
      · exfalso
        unfold load_sql_scripts sql_files at hmem
        simp [processFiles, hc1, hr1, hc2] at hmem
        have hf1 := ht1 s b f hmem
        rw [hf1] at hview
        exact absurd hview (by decide)
      · rename_i fnScript
        cases hr2 : runStatements exec "Functions.sql"
            (split_sql_statements fnScript "Functions.sql") with
        | mk t2 r2 =>
          have ht2 : ∀ s2 b2 f2, DbEvent.execStmt f2 s2 b2 ∈ t2 →
              f2 = "Functions.sql" :=
            fun s2 b2 f2 h => runStatements_mem_file exec _ _ _ _ hr2 f2 s2 b2 h
          cases r2 with
          | error e =>
            exfalso
            unfold load_sql_scripts sql_files at hmem
            simp [processFiles, hc1, hr1, hc2, hr2] at hmem
            rcases hmem with h | h
            · have hf1 := ht1 s b f h
              rw [hf1] at hview
              exact absurd hview (by decide)
            · have hf2 := ht2 s b f h
              rw [hf2] at hview
              exact absurd hview (by decide)
          | ok n2 =>
            by_cases hchk : check_functions_exist dbFuncs = true
            · have htr : (load_sql_scripts contents exec dbFuncs).1 =
                  (t1 ++ t2) ++ DbEvent.checkFuncs true ::
                    (processFiles contents exec dbFuncs
                      ["View dm_sessions.sql", "View dm_transactions.sql"]).1 := by
                unfold load_sql_scripts sql_files
                simp [processFiles, hc1, hr1, hc2, hr2, hchk]
              rw [htr] at hmem ⊢
              refine ⟨t1 ++ t2, _, rfl, ?_, ?_, ?_⟩
              · rcases List.mem_append.mp hmem with h | h
                · exfalso
                  rcases List.mem_append.mp h with h2 | h2
                  · have hf1 := ht1 s b f h2
                    rw [hf1] at hview
                    exact absurd hview (by decide)
                  · have hf2 := ht2 s b f h2
                    rw [hf2] at hview
                    exact absurd hview (by decide)
                · rcases List.mem_cons.mp h with h2 | h2
                  · exact absurd h2 (by simp)
                  · exact h2
              · intro f2 s2 b2 h
                rcases List.mem_append.mp h with h2 | h2
                · rw [ht1 s2 b2 f2 h2]
                  decide
                · rw [ht2 s2 b2 f2 h2]
                  decide
              · intro s2 b2 hsv
                rcases processFiles_events contents exec dbFuncs
                    ["View dm_sessions.sql", "View dm_transactions.sql"]
                    (DbEvent.execStmt "Functions.sql" s2 b2) hsv with
                  ⟨g, hg, s3, b3, heq⟩ | ⟨ok2, heq, hm⟩
                · injection heq with h1 h2 h3
                  rw [← h1] at hg
                  exact absurd hg (by decide)
                · exact absurd heq (by simp)
            · exfalso
              unfold load_sql_scripts sql_files at hmem
              simp [processFiles, hc1, hr1, hc2, hr2, hchk] at hmem
              rcases hmem with h | h
              · have hf1 := ht1 s b f h
                rw [hf1] at hview
                exact absurd hview (by decide)
              · have hf2 := ht2 s b f h
                rw [hf2] at hview
                exact absurd hview (by decide)

/-- C9 witness: the ordering theorem applied to the store where every file
holds CREATE x, the all-success executor and a database holding both
expected functions, at the view statement the run executes; both
hypotheses discharged by evaluation of the builder run. -/
theorem c9_views_after_verification_witness :
    ∃ pre suf,
      (load_sql_scripts allOkContents allOkExec expectedFunctions).1 =
        pre ++ DbEvent.checkFuncs true :: suf ∧
      DbEvent.execStmt "View dm_sessions.sql" "CREATE x" true ∈ suf ∧
      (∀ f2 s2 b2, DbEvent.execStmt f2 s2 b2 ∈ pre → strContains f2 "View" = false) ∧
      (∀ s2 b2, DbEvent.execStmt "Functions.sql" s2 b2 ∉ suf) :=
  c9_views_after_verification allOkContents allOkExec expectedFunctions
    "View dm_sessions.sql" "CREATE x" true (by decide) (by decide)

end SalesETL
